import Mathlib

/-!
Verification of the igdl resilient-client core: ProxyRotator, RateLimiter,
the retrying HTTP request loop of InstagramClient, the post-pagination
iterator, and the Aria2Downloader batch queue.  Each Lean definition is a
shallow embedding of the corresponding Python definition in src/igdl.
-/

namespace Igdl

/-! ## ProxyRotator (src/igdl/proxy.py)

State: the loaded proxy list, the request counter since the last rotation,
and the current index.  `rotationLog` is a ghost counter of executed
`_rotate` calls, mirroring the console message that `_rotate` prints on
every rotation (old index to new index); it lets theorems count rotations.
-/

structure ProxyRotator where
  proxies : List String
  request_count : Nat
  current_index : Nat
  rotationLog : Nat
deriving Repr, DecidableEq

def ROTATE_EVERY_REQUESTS : Nat := 20

def ProxyRotator.has_multiple (r : ProxyRotator) : Bool :=
  r.proxies.length > 1

/-- `_rotate`: switch to next proxy in the list (circular forward). -/
def ProxyRotator.rotate (r : ProxyRotator) : ProxyRotator :=
  { r with
    current_index := (r.current_index + 1) % r.proxies.length
    rotationLog := r.rotationLog + 1 }

/-- `record_request`: no-op without multiple proxies; otherwise increment the
counter and rotate (resetting the counter) once it reaches the threshold. -/
def ProxyRotator.record_request (r : ProxyRotator) : ProxyRotator :=
  if !r.has_multiple then r
  else
    let r1 := { r with request_count := r.request_count + 1 }
    if r1.request_count ≥ ROTATE_EVERY_REQUESTS then
      { r1.rotate with request_count := 0 }
    else r1

/-- `rotate_on_error`: no-op without multiple proxies; otherwise force a
rotation and reset the request counter. -/
def ProxyRotator.rotate_on_error (r : ProxyRotator) : ProxyRotator :=
  if !r.has_multiple then r
  else { r.rotate with request_count := 0 }

/-- `get_current`: `None` on an empty pool, else the proxy at the current
index (always in range in reachable states, since rotation is modular). -/
def ProxyRotator.get_current (r : ProxyRotator) : Option String :=
  if r.proxies.isEmpty then none else r.proxies[r.current_index]?

/-- An arbitrary interleaving of `record_request` (`true`) and
`rotate_on_error` (`false`) calls, applied left to right. -/
def rotatorCalls : List Bool → ProxyRotator → ProxyRotator
  | [], r => r
  | b :: bs, r =>
      rotatorCalls bs (if b then r.record_request else r.rotate_on_error)

/-! ## RateLimiter (src/igdl/rate_limiter.py)

State: the deque of request timestamps (monotonic clock, modelled as ℚ)
together with the current clock value.  `record_request` appends the current
time; `_clean_old_timestamps` pops from the left while the head is older
than `now - WINDOW_SECONDS`; `wait_if_needed` (no-proxy path; the proxy path
skips the window check) cleans, sleeps until the oldest entry exits the
window plus a 6-second margin when the window is saturated, then sleeps a
random inter-request delay, modelled as an arbitrary non-negative rational.
-/

def WINDOW_SECONDS : ℚ := 660

def MAX_REQUESTS : Nat := 75

structure RateLimiterState where
  timestamps : List ℚ
  now : ℚ
deriving Repr, DecidableEq

/-- `_clean_old_timestamps`: popleft while the head is before the cutoff. -/
def RateLimiter.clean_old (t : ℚ) (s : List ℚ) : List ℚ :=
  s.dropWhile (fun ts => decide (ts < t - WINDOW_SECONDS))

/-- `record_request`: append the current monotonic time to the deque. -/
def RateLimiter.record_request (s : RateLimiterState) : RateLimiterState :=
  ⟨s.timestamps ++ [s.now], s.now⟩

/-- The clock value when the saturation wait of `wait_if_needed` finishes:
when the cleaned window holds at least MAX_REQUESTS entries, sleep until
`oldest + WINDOW_SECONDS + 6` (a no-op if that already passed). -/
def RateLimiter.window_wait_target (t : ℚ) (cleaned : List ℚ) : ℚ :=
  if cleaned.length ≥ MAX_REQUESTS then
    match cleaned with
    | [] => t
    | oldest :: _ => max t (oldest + WINDOW_SECONDS + 6)
  else t

/-- `wait_if_needed` without a proxy: clean the window, wait out saturation,
then sleep the random delay `delay`. -/
def RateLimiter.wait_if_needed (s : RateLimiterState) (delay : ℚ) :
    RateLimiterState :=
  let cleaned := RateLimiter.clean_old s.now s.timestamps
  ⟨cleaned, RateLimiter.window_wait_target s.now cleaned + delay⟩

/-- `get_stats`: the `requests_in_window` entry (the deque is cleaned
first). -/
def RateLimiter.get_stats_requests (s : RateLimiterState) : Nat :=
  (RateLimiter.clean_old s.now s.timestamps).length

/-- One disciplined client step: the clock idles by `idle`, then
`wait_if_needed` runs, then `record_request` fires immediately (the order
InstagramClient._request uses). -/
def RateLimiter.guardedStep (s : RateLimiterState) (idle delay : ℚ) :
    RateLimiterState :=
  RateLimiter.record_request
    (RateLimiter.wait_if_needed ⟨s.timestamps, s.now + idle⟩ delay)

/-- A trace of disciplined steps, each with its own idle time and random
delay. -/
def RateLimiter.runSteps : List (ℚ × ℚ) → RateLimiterState → RateLimiterState
  | [], s => s
  | (idle, delay) :: rest, s =>
      RateLimiter.runSteps rest (RateLimiter.guardedStep s idle delay)

/-- Reachable-state invariant of the rate limiter under disciplined usage:
timestamps are sorted, none is in the future, and at most MAX_REQUESTS of
them lie inside the sliding window. -/
def RLInv (s : RateLimiterState) : Prop :=
  s.timestamps.Sorted (· ≤ ·) ∧ (∀ ts ∈ s.timestamps, ts ≤ s.now) ∧
    RateLimiter.get_stats_requests s ≤ MAX_REQUESTS

/-! ## InstagramClient._request (src/igdl/client.py)

The retry loop `for attempt in range(max_retries)` is modelled with fuel
`rem = max_retries - attempt`.  The backend is a function from the attempt
index to that attempt's outcome: an HTTP response (status code, whether the
body text contains the rate-limit hint `"wait"` for the 401 check, and the
Retry-After header) or a transport-level exception.  The rate limiter's
`wait_if_needed` (once, before the loop) and `record_request` (per
response) are orthogonal to C3/C4 and not tracked here; the proxy rotator's
state is.
-/

inductive BackendResult where
  | resp (status : Nat) (bodyHasWait : Bool) (retryAfter : Option ℚ)
  | netError
deriving Repr, DecidableEq

/-- Errors `_request` raises: RateLimitError (carrying retry_after),
ProfileNotFoundError, and ApiError (carrying the status; `api 0` covers the
wrapped transport error and the fallthrough "Max retries exceeded"). -/
inductive ReqError where
  | rateLimit (retry_after : ℚ)
  | notFound
  | api (status : Nat)
deriving Repr, DecidableEq

structure RequestOutcome where
  result : Except ReqError Nat
  attempts : Nat
  rotator : ProxyRotator
  sleeps : List ℚ
  refreshes : Nat
deriving Repr

def requestAux (backend : Nat → BackendResult) (maxRetries : Nat) :
    Nat → Nat → ProxyRotator → List ℚ → Nat → RequestOutcome
  | 0, attempt, rot, sleeps, refreshes =>
      ⟨.error (.api 0), attempt, rot, sleeps, refreshes⟩
  | rem + 1, attempt, rot, sleeps, refreshes =>
      match backend attempt with
      | .resp status hasWait retryAfter =>
          let rot1 := rot.record_request
          if status == 429 || (status == 401 && hasWait) then
            let rot2 := rot1.rotate_on_error
            let ra0 := retryAfter.getD 300
            let ra := if rot2.has_multiple then (1 : ℚ) else ra0
            if attempt < maxRetries - 1 then
              requestAux backend maxRetries rem (attempt + 1) rot2
                (sleeps ++ [ra]) (refreshes + 1)
            else ⟨.error (.rateLimit ra), attempt + 1, rot2, sleeps, refreshes⟩
          else if status == 404 then
            ⟨.error .notFound, attempt + 1, rot1, sleeps, refreshes⟩
          else if status ≥ 400 then
            ⟨.error (.api status), attempt + 1, rot1, sleeps, refreshes⟩
          else ⟨.ok status, attempt + 1, rot1, sleeps, refreshes⟩
      | .netError =>
          if attempt < maxRetries - 1 then
            requestAux backend maxRetries rem (attempt + 1) rot
              (sleeps ++ [(2 : ℚ) ^ attempt]) refreshes
          else ⟨.error (.api 0), attempt + 1, rot, sleeps, refreshes⟩

/-- `_request`: run the retry loop from attempt 0 with full budget. -/
def request (backend : Nat → BackendResult) (maxRetries : Nat)
    (rot : ProxyRotator) : RequestOutcome :=
  requestAux backend maxRetries maxRetries 0 rot [] 0

/-- The 429/429/200 backend of the C4 scenario. -/
def backend429twice : Nat → BackendResult := fun n =>
  if n < 2 then .resp 429 false none else .resp 200 false none

/-! ## InstagramClient.iter_posts (src/igdl/client.py)

The generator is modelled as a function from a fetch backend (indexed by
the number of `get_posts_page` calls made so far, each call either
returning a page or raising ApiError/RateLimitError) to the full list of
yielded posts plus the observable trace: fetch calls, `time.sleep`
durations, `refresh_session` calls, and how the iteration ended.  The
`while True` loop gets a fuel parameter (a model artifact: every theorem
supplies enough fuel, and `outOfFuel` never occurs in them).  Post contents
are irrelevant to pagination, so posts are opaque `Nat` identities.
-/

structure PostsPage where
  posts : List Nat
  has_next_page : Bool
  end_cursor : Option String
deriving Repr, DecidableEq

inductive Fetch where
  | ok (page : PostsPage)
  | fail
deriving Repr, DecidableEq

inductive IterEnd where
  | limitReached
  | noMorePages
  | retriesExhausted
  | outOfFuel
deriving Repr, DecidableEq

structure IterResult where
  emitted : List Nat
  fetchCalls : Nat
  sleeps : List ℚ
  refreshes : Nat
  ended : IterEnd
deriving Repr, DecidableEq

/-- The inner `for attempt in range(max_page_retries)` loop: fetch the same
page, and on failure sleep `30 * (attempt + 1)` seconds and refresh the
session before retrying, unless the budget is exhausted.  Returns the page
(if any), the updated call counter, the sleeps, and the refresh count. -/
def fetchRetry (backend : Nat → Fetch) (maxPageRetries : Nat) :
    Nat → Nat → Nat → Option PostsPage × Nat × List ℚ × Nat
  | 0, _, calls => (none, calls, [], 0)
  | rem + 1, attempt, calls =>
      match backend calls with
      | .ok page => (some page, calls + 1, [], 0)
      | .fail =>
          if attempt < maxPageRetries - 1 then
            let r := fetchRetry backend maxPageRetries rem (attempt + 1)
              (calls + 1)
            (r.1, r.2.1, (30 * (attempt + 1) : ℚ) :: r.2.2.1, r.2.2.2 + 1)
          else (none, calls + 1, [], 0)

/-- Python truthiness of `limit` in `if limit and count >= limit`: `None`
and `0` are both falsy. -/
def limitHit (limit : Option Nat) (count : Nat) : Bool :=
  match limit with
  | none => false
  | some l => l != 0 && l ≤ count

/-- Python truthiness of `not page.end_cursor`: `None` and `""` are falsy
cursors. -/
def cursorFalsy : Option String → Bool
  | none => true
  | some c => c == ""

/-- The `for post in page.posts` loop: yield each post, incrementing the
count, and return as soon as `limit and count >= limit`.  Returns the
emitted posts, the new count, and whether the limit fired. -/
def emitPosts (limit : Option Nat) : List Nat → Nat → List Nat × Nat × Bool
  | [], count => ([], count, false)
  | p :: rest, count =>
      if limitHit limit (count + 1) then ([p], count + 1, true)
      else
        let r := emitPosts limit rest (count + 1)
        (p :: r.1, r.2.1, r.2.2)

def iterPostsAux (backend : Nat → Fetch) (limit : Option Nat)
    (maxPageRetries : Nat) :
    Nat → Option String → Nat → Nat → IterResult
  | 0, _, _, calls => ⟨[], calls, [], 0, .outOfFuel⟩
  | fuel + 1, _cursor, count, calls =>
      let fr := fetchRetry backend maxPageRetries maxPageRetries 0 calls
      match fr.1 with
      | none => ⟨[], fr.2.1, fr.2.2.1, fr.2.2.2, .retriesExhausted⟩
      | some page =>
          let er := emitPosts limit page.posts count
          if er.2.2 then ⟨er.1, fr.2.1, fr.2.2.1, fr.2.2.2, .limitReached⟩
          else if !page.has_next_page || cursorFalsy page.end_cursor then
            ⟨er.1, fr.2.1, fr.2.2.1, fr.2.2.2, .noMorePages⟩
          else
            let r := iterPostsAux backend limit maxPageRetries fuel
              page.end_cursor er.2.1 fr.2.1
            ⟨er.1 ++ r.emitted, r.fetchCalls, fr.2.2.1 ++ r.sleeps,
              fr.2.2.2 + r.refreshes, r.ended⟩

/-- `iter_posts`: cursor starts at `None`, count at 0, with the default
`max_page_retries = 3`. -/
def iter_posts (backend : Nat → Fetch) (limit : Option Nat) (fuel : Nat) :
    IterResult :=
  iterPostsAux backend limit 3 fuel none 0 0

/-- A 3-page backend: two posts per page, third page reports no
continuation; any fetch beyond the third fails. -/
def pagesBackend : Nat → Fetch := fun n =>
  if n = 0 then .ok ⟨[1, 2], true, some "c1"⟩
  else if n = 1 then .ok ⟨[3, 4], true, some "c2"⟩
  else if n = 2 then .ok ⟨[5, 6], false, none⟩
  else .fail

/-- A backend whose first page succeeds and every later fetch fails. -/
def failTailBackend : Nat → Fetch := fun n =>
  if n = 0 then .ok ⟨[1, 2], true, some "c1"⟩ else .fail

/-! ## Aria2Downloader (src/igdl/aria2.py)

`flush` writes the queue to the per-owner recovery file, runs aria2c, and
reports.  The external world is modelled by `found` (whether the aria2c
binary exists), `exit0` (whether aria2c's return code is 0), and
`fexists` (which destination filenames exist under `output_dir` after the
transfer) — independent inputs, since the exit status carries no guarantee
about individual files.
-/

structure DownloadItem where
  url : String
  filename : String
  shortcode : String
deriving Repr, DecidableEq

/-- `_run_aria2c`: missing binary → (0, all failed); exit code 0 → all
successful with no file check; otherwise count destination files that
exist on disk. -/
def run_aria2c (items : List DownloadItem) (found exit0 : Bool)
    (fexists : String → Bool) : Nat × Nat :=
  if !found then (0, items.length)
  else if exit0 then (items.length, 0)
  else
    let successful := (items.filter (fun it => fexists it.filename)).length
    (successful, items.length - successful)

structure FlushOutcome where
  successful_shortcodes : Finset String
  failed : Nat
  recoveryFileDeleted : Bool
  queueCleared : Bool

/-- `flush`: empty queue is a no-op; otherwise write the recovery file, run
aria2c, collect the shortcodes whose destination files exist, delete the
recovery file iff the reported failed count is zero, and clear the
queue. -/
def flush (items : List DownloadItem) (found exit0 : Bool)
    (fexists : String → Bool) : FlushOutcome :=
  if items.isEmpty then ⟨∅, 0, false, false⟩
  else
    let fr := run_aria2c items found exit0 fexists
    let shortcodes :=
      ((items.filter (fun it => fexists it.filename)).map
        (fun it => it.shortcode)).toFinset
    ⟨shortcodes, fr.2, decide (fr.2 = 0), true⟩

/-! ### resume's recovery-file parser

Python `str` is modelled as `List Char`: Lean's own `String` functions
(`trim`, `splitOn`, …) are defined by well-founded recursion and do not
evaluate inside the kernel, while the char-list versions below are
structurally recursive and fully computable, with the same semantics as
the Python string operations the parser uses.
-/

/-- Python `line.strip()` (for the ASCII whitespace the parser meets). -/
def trimChars (s : List Char) : List Char :=
  ((s.dropWhile Char.isWhitespace).reverse.dropWhile Char.isWhitespace).reverse

def httpChars : List Char := ['h', 't', 't', 'p']

def outEqChars : List Char := ['o', 'u', 't', '=']

/-- Python `"out=" in line`. -/
def hasOutDirective : List Char → Bool
  | [] => false
  | c :: rest => outEqChars.isPrefixOf (c :: rest) || hasOutDirective rest

/-- Python `line.replace("out=", "")`: remove every (non-overlapping,
leftmost-first) occurrence of `out=`.  When the 4-character pattern is a
prefix, the tail necessarily has at least 3 more characters, so the
catch-all arm of the inner match is unreachable. -/
def stripOutEq : List Char → List Char
  | [] => []
  | c :: rest =>
      if outEqChars.isPrefixOf (c :: rest) then
        match rest with
        | _ :: _ :: _ :: r3 => stripOutEq r3
        | _ => []
      else c :: stripOutEq rest

/-- Python `filename.split(".")[0].split("_")[0]`: the piece before the
first `.`, then the piece before the first `_` of that. -/
def shortcodeOf (filename : List Char) : List Char :=
  (filename.takeWhile (fun c => c != '.')).takeWhile (fun c => c != '_')

structure RecoveryItem where
  url : List Char
  filename : List Char
  shortcode : List Char
deriving Repr, DecidableEq

/-- The recovery-file parsing loop of `resume`: for every stripped line
starting with "http", take the next line's `out=` filename when present
(consuming that line), else an empty filename; other lines are skipped. -/
def parseRecoveryLines : List (List Char) → List RecoveryItem
  | [] => []
  | [l] =>
      if httpChars.isPrefixOf (trimChars l) then
        [⟨trimChars l, [], shortcodeOf []⟩]
      else []
  | l :: next :: rest2 =>
      if httpChars.isPrefixOf (trimChars l) then
        if hasOutDirective next then
          let filename := stripOutEq (trimChars next)
          ⟨trimChars l, filename, shortcodeOf filename⟩ ::
            parseRecoveryLines rest2
        else
          ⟨trimChars l, [], shortcodeOf []⟩ ::
            parseRecoveryLines (next :: rest2)
      else parseRecoveryLines (next :: rest2)

lemma ProxyRotator.record_request_of_multiple (p : List String) (c i l : Nat)
    (hm : p.length > 1) :
    (⟨p, c, i, l⟩ : ProxyRotator).record_request =
      if c + 1 ≥ 20 then (⟨p, 0, (i + 1) % p.length, l + 1⟩ : ProxyRotator)
      else ⟨p, c + 1, i, l⟩ := by
  have hm' : decide (p.length > 1) = true := decide_eq_true hm
  simp only [ProxyRotator.record_request, ProxyRotator.rotate,
    ProxyRotator.has_multiple, ROTATE_EVERY_REQUESTS, hm', Bool.not_true,
    Bool.false_eq_true, if_false]

lemma ProxyRotator.rotate_on_error_of_multiple (p : List String) (c i l : Nat)
    (hm : p.length > 1) :
    (⟨p, c, i, l⟩ : ProxyRotator).rotate_on_error =
      ⟨p, 0, (i + 1) % p.length, l + 1⟩ := by
  have hm' : decide (p.length > 1) = true := decide_eq_true hm
  simp only [ProxyRotator.rotate_on_error, ProxyRotator.rotate,
    ProxyRotator.has_multiple, hm', Bool.not_true, Bool.false_eq_true,
    if_false]

lemma ProxyRotator.record_request_iterate (p : List String) (i l : Nat)
    (hm : p.length > 1) (hidx : i < p.length) (n : Nat) :
    ProxyRotator.record_request^[n] ⟨p, 0, i, l⟩ =
      ⟨p, n % 20, (i + n / 20) % p.length, l + n / 20⟩ := by
  induction n with
  | zero =>
      simp only [Function.iterate_zero, id_eq, Nat.zero_mod, Nat.zero_div,
        Nat.add_zero]
      rw [Nat.mod_eq_of_lt hidx]
  | succ n ih =>
      rw [Function.iterate_succ_apply', ih,
        ProxyRotator.record_request_of_multiple p _ _ _ hm]
      have hmod : n % 20 < 20 := Nat.mod_lt _ (by omega)
      by_cases h19 : n % 20 = 19
      · have hsucc : (n + 1) % 20 = 0 := by omega
        have hdiv : (n + 1) / 20 = n / 20 + 1 := by omega
        rw [if_pos (by omega : n % 20 + 1 ≥ 20)]
        simp only [hsucc, hdiv, ProxyRotator.mk.injEq]
        refine ⟨trivial, trivial, ?_, by omega⟩
        rw [Nat.mod_add_mod, Nat.add_assoc]
      · have hsucc : (n + 1) % 20 = n % 20 + 1 := by omega
        have hdiv : (n + 1) / 20 = n / 20 := by omega
        rw [if_neg (by omega : ¬ n % 20 + 1 ≥ 20)]
        rw [hsucc, hdiv]

/-- C7 (amended): with multiple proxies, a fresh counter and an in-range
index, after n recorded requests the counter is n mod 20, the index has
advanced floor(n/20) circular steps and floor(n/20) rotations were logged
(so every 20th request triggers exactly one rotation and resets the
counter); `rotate_on_error` rotates immediately and resets the counter, and
the next 19 recorded requests trigger no further rotation; for 20 ≤ n < 40
the current index after n recorded requests differs from the index before.
(The original claim's final clause, for every n ≥ 20, is refuted at n = 60
with 3 proxies: see the counterexample.) -/
theorem proxy_rotation_schedule (p : List String) (i l : Nat)
    (hm : p.length > 1) (hidx : i < p.length) :
    (∀ n, ProxyRotator.record_request^[n] (⟨p, 0, i, l⟩ : ProxyRotator) =
      ⟨p, n % 20, (i + n / 20) % p.length, l + n / 20⟩) ∧
    ((⟨p, 0, i, l⟩ : ProxyRotator).rotate_on_error =
      ⟨p, 0, (i + 1) % p.length, l + 1⟩) ∧
    (∀ m, m ≤ 19 →
      (ProxyRotator.record_request^[m]
          (⟨p, 0, i, l⟩ : ProxyRotator).rotate_on_error).current_index =
        (⟨p, 0, i, l⟩ : ProxyRotator).rotate_on_error.current_index ∧
      (ProxyRotator.record_request^[m]
          (⟨p, 0, i, l⟩ : ProxyRotator).rotate_on_error).rotationLog =
        (⟨p, 0, i, l⟩ : ProxyRotator).rotate_on_error.rotationLog) ∧
    (∀ n, 20 ≤ n → n < 40 →
      (ProxyRotator.record_request^[n]
          (⟨p, 0, i, l⟩ : ProxyRotator)).current_index ≠ i) := by
  have hrot : (⟨p, 0, i, l⟩ : ProxyRotator).rotate_on_error =
      ⟨p, 0, (i + 1) % p.length, l + 1⟩ :=
    ProxyRotator.rotate_on_error_of_multiple p 0 i l hm
  refine ⟨fun n => ProxyRotator.record_request_iterate p i l hm hidx n,
    hrot, ?_, ?_⟩
  · intro m hm19
    rw [hrot,
      ProxyRotator.record_request_iterate p _ _ hm
        (Nat.mod_lt _ (by omega)) m]
    have hq : m / 20 = 0 := by omega
    simp [hq]
  · intro n h20 h40
    rw [ProxyRotator.record_request_iterate p i l hm hidx n]
    have hq : n / 20 = 1 := by omega
    simp only [hq]
    intro hcontra
    by_cases hlt : i + 1 < p.length
    · rw [Nat.mod_eq_of_lt hlt] at hcontra; omega
    · have heq : i + 1 = p.length := by omega
      rw [heq, Nat.mod_self] at hcontra; omega

/-- C7 witness: a fresh 3-proxy rotator satisfies the schedule theorem's
hypotheses; after 20 recorded requests the index is 1 and after
`rotate_on_error` the counter is 0. -/
theorem proxy_rotation_schedule_witness :
    (ProxyRotator.record_request^[20]
        (⟨["a", "b", "c"], 0, 0, 0⟩ : ProxyRotator)).current_index = 1 ∧
    (⟨["a", "b", "c"], 0, 0, 0⟩ : ProxyRotator).rotate_on_error.request_count
      = 0 := by
  have h := proxy_rotation_schedule ["a", "b", "c"] 0 0 (by decide) (by decide)
  constructor
  · rw [h.1 20]; rfl
  · rw [h.2.1]

/-- C7 counterexample: with 3 proxies and a fresh counter, after n = 60 ≥ 20
recorded requests `get_current` equals its value before those requests,
refuting the claim that it differs for every n ≥ 20. -/
theorem proxy_sixty_requests_same_proxy :
    20 ≤ 60 ∧
    (ProxyRotator.record_request^[60]
        (⟨["a", "b", "c"], 0, 0, 0⟩ : ProxyRotator)).get_current =
      (⟨["a", "b", "c"], 0, 0, 0⟩ : ProxyRotator).get_current := by
  refine ⟨by omega, ?_⟩
  rw [ProxyRotator.record_request_iterate ["a", "b", "c"] 0 0 (by decide)
    (by decide) 60]
  rfl

/-- C8: with zero or one proxies, `record_request` and `rotate_on_error`
leave the entire rotator state unchanged (any interleaved sequence of such
calls is the identity), and `get_current` is stable: none on an empty pool,
the single proxy otherwise. -/
theorem proxy_single_noop (r : ProxyRotator) (h : r.proxies.length ≤ 1) :
    r.record_request = r ∧ r.rotate_on_error = r ∧
    (∀ calls : List Bool, rotatorCalls calls r = r) ∧
    (∀ calls : List Bool, (rotatorCalls calls r).get_current = r.get_current) := by
  have hnm : r.has_multiple = false := by
    unfold ProxyRotator.has_multiple
    simp only [decide_eq_false_iff_not]
    omega
  have hrec : r.record_request = r := by
    unfold ProxyRotator.record_request; simp [hnm]
  have hrot : r.rotate_on_error = r := by
    unfold ProxyRotator.rotate_on_error; simp [hnm]
  have hcalls : ∀ calls : List Bool, rotatorCalls calls r = r := by
    intro calls
    induction calls with
    | nil => rfl
    | cons b bs ih =>
        cases b <;> simp only [rotatorCalls, hrec, hrot] <;> exact ih
  exact ⟨hrec, hrot, hcalls, fun calls => by rw [hcalls]⟩

/-- C8 witness: a one-proxy rotator is untouched by a mixed call sequence
and keeps reporting its single proxy. -/
theorem proxy_single_noop_witness :
    rotatorCalls [true, false, true, true, false]
        (⟨["p"], 0, 0, 0⟩ : ProxyRotator) = ⟨["p"], 0, 0, 0⟩ ∧
    (rotatorCalls [true, false, true, true, false]
        (⟨["p"], 0, 0, 0⟩ : ProxyRotator)).get_current = some "p" := by
  have h := proxy_single_noop ⟨["p"], 0, 0, 0⟩ (by decide)
  exact ⟨h.2.2.1 _, by rw [h.2.2.1 _]; rfl⟩

lemma length_dropWhile_le {α : Type} (p : α → Bool) (l : List α) :
    (l.dropWhile p).length ≤ l.length :=
  (List.dropWhile_sublist p).length_le

lemma length_dropWhile_le_of_imp {α : Type} (p q : α → Bool)
    (h : ∀ a, p a = true → q a = true) (s : List α) :
    (s.dropWhile q).length ≤ (s.dropWhile p).length := by
  induction s with
  | nil => simp
  | cons x xs ih =>
      by_cases hx : p x = true
      · rw [List.dropWhile_cons, List.dropWhile_cons, if_pos (h x hx),
          if_pos hx]
        exact ih
      · rw [List.dropWhile_cons, List.dropWhile_cons, if_neg hx]
        by_cases hq : q x = true
        · rw [if_pos hq]
          exact le_trans (length_dropWhile_le q xs) (by simp)
        · rw [if_neg hq]

lemma dropWhile_append_singleton {α : Type} (p : α → Bool) (y : α)
    (hy : p y = false) (xs : List α) :
    (xs ++ [y]).dropWhile p = xs.dropWhile p ++ [y] := by
  induction xs with
  | nil => simp [List.dropWhile, hy]
  | cons x xs ih =>
      by_cases hx : p x = true
      · rw [List.cons_append, List.dropWhile_cons, if_pos hx,
          List.dropWhile_cons, if_pos hx, ih]
      · rw [List.cons_append, List.dropWhile_cons, if_neg hx,
          List.dropWhile_cons, if_neg hx, List.cons_append]

lemma RateLimiter.clean_old_mono (s : List ℚ) (t t' : ℚ) (h : t ≤ t') :
    (RateLimiter.clean_old t' s).length ≤ (RateLimiter.clean_old t s).length := by
  refine length_dropWhile_le_of_imp _ _ (fun a ha => ?_) s
  rw [decide_eq_true_eq] at ha ⊢
  have : t - WINDOW_SECONDS ≤ t' - WINDOW_SECONDS := by linarith
  linarith

lemma RateLimiter.le_window_wait_target (t : ℚ) (cleaned : List ℚ) :
    t ≤ RateLimiter.window_wait_target t cleaned := by
  unfold RateLimiter.window_wait_target
  split
  · match cleaned with
    | [] => exact le_refl t
    | oldest :: _ => exact le_max_left _ _
  · exact le_refl t

lemma RateLimiter.window_wait_target_saturated (t oldest : ℚ)
    (rest : List ℚ) (hsat : (oldest :: rest).length ≥ MAX_REQUESTS) :
    oldest + WINDOW_SECONDS + 6 ≤
      RateLimiter.window_wait_target t (oldest :: rest) := by
  unfold RateLimiter.window_wait_target
  rw [if_pos hsat]
  exact le_max_right _ _

/-- After a disciplined step the new state — the cleaned window plus the
fresh timestamp, at the post-wait clock — satisfies the invariant. -/
lemma RLInv_append_step (cleaned : List ℚ) (now t2 : ℚ)
    (hsorted : cleaned.Sorted (· ≤ ·))
    (hmem : ∀ x ∈ cleaned, x ≤ now)
    (hnow : now ≤ t2)
    (hlen : cleaned.length ≤ MAX_REQUESTS)
    (hwait : cleaned.length ≥ MAX_REQUESTS →
      ∃ oldest rest, cleaned = oldest :: rest ∧
        oldest < t2 - WINDOW_SECONDS) :
    RLInv ⟨cleaned ++ [t2], t2⟩ := by
  have hmem2 : ∀ x ∈ cleaned, x ≤ t2 := fun x hx =>
    le_trans (hmem x hx) hnow
  refine ⟨?_, ?_, ?_⟩
  · rw [List.Sorted, List.pairwise_append]
    exact ⟨hsorted, List.pairwise_singleton _ _,
      fun x hx y hy => by
        rw [List.mem_singleton] at hy; subst hy; exact hmem2 x hx⟩
  · intro ts hts
    rcases List.mem_append.mp hts with h | h
    · exact hmem2 ts h
    · rw [List.mem_singleton] at h; subst h; exact le_refl _
  · unfold RateLimiter.get_stats_requests RateLimiter.clean_old
    dsimp only
    have hp2 : decide (t2 < t2 - WINDOW_SECONDS) = false := by
      simp only [decide_eq_false_iff_not, not_lt]
      unfold WINDOW_SECONDS; linarith
    rw [dropWhile_append_singleton
        (fun ts => decide (ts < t2 - WINDOW_SECONDS)) t2 hp2 cleaned,
      List.length_append, List.length_singleton]
    have hgoal : (cleaned.dropWhile
        (fun ts => decide (ts < t2 - WINDOW_SECONDS))).length ≤
        MAX_REQUESTS - 1 := by
      by_cases hsat : cleaned.length ≥ MAX_REQUESTS
      · -- saturated window: the wait pushed the oldest entry out
        obtain ⟨oldest, rest, hceq, hold⟩ := hwait hsat
        subst hceq
        have hpold : (fun ts => decide (ts < t2 - WINDOW_SECONDS))
            oldest = true := decide_eq_true hold
        rw [List.dropWhile_cons, if_pos hpold]
        have := length_dropWhile_le
          (fun ts => decide (ts < t2 - WINDOW_SECONDS)) rest
        simp only [List.length_cons] at hlen hsat
        omega
      · -- below the threshold: adding one entry keeps the bound
        have := length_dropWhile_le
          (fun ts => decide (ts < t2 - WINDOW_SECONDS)) cleaned
        omega
    unfold MAX_REQUESTS at hgoal ⊢
    omega

lemma RLInv_guardedStep (s : RateLimiterState) (idle delay : ℚ)
    (hinv : RLInv s) (hidle : 0 ≤ idle) (hdelay : 0 ≤ delay) :
    RLInv (RateLimiter.guardedStep s idle delay) := by
  obtain ⟨hsort, hle, hcount⟩ := hinv
  show RLInv ⟨RateLimiter.clean_old (s.now + idle) s.timestamps ++
      [RateLimiter.window_wait_target (s.now + idle)
          (RateLimiter.clean_old (s.now + idle) s.timestamps) + delay],
    RateLimiter.window_wait_target (s.now + idle)
        (RateLimiter.clean_old (s.now + idle) s.timestamps) + delay⟩
  have hsub : (RateLimiter.clean_old (s.now + idle) s.timestamps).Sublist
      s.timestamps := List.dropWhile_sublist _
  have hwwt := RateLimiter.le_window_wait_target (s.now + idle)
    (RateLimiter.clean_old (s.now + idle) s.timestamps)
  refine RLInv_append_step _ s.now _ (hsort.sublist hsub)
    (fun x hx => hle x (hsub.subset hx)) (by linarith) ?_ ?_
  · exact le_trans
      (RateLimiter.clean_old_mono s.timestamps s.now (s.now + idle)
        (by linarith)) hcount
  · intro hsat
    cases hc : RateLimiter.clean_old (s.now + idle) s.timestamps with
    | nil =>
        rw [hc] at hsat
        unfold MAX_REQUESTS at hsat
        simp at hsat
    | cons oldest rest =>
        rw [hc] at hsat
        have h6 := RateLimiter.window_wait_target_saturated (s.now + idle)
          oldest rest hsat
        refine ⟨oldest, rest, rfl, ?_⟩
        linarith

/-- C1 (amended): under the disciplined usage the client follows — no proxy
configured and every `record_request` immediately preceded by
`wait_if_needed` — the sliding window never contains, and `get_stats` never
reports, more than 75 timestamps lying within the last 660 seconds: the
invariant holds initially, is preserved by every step and by every trace of
steps, and bounds the reported count at the step's end as well as at every
later instant.  (The original claim, for arbitrary `record_request`
sequences, is refuted by the counterexample: 76 bare records.) -/
theorem rate_limiter_window_bound :
    (∀ t0 : ℚ, RLInv ⟨[], t0⟩) ∧
    (∀ s idle delay, RLInv s → 0 ≤ idle → 0 ≤ delay →
      RLInv (RateLimiter.guardedStep s idle delay)) ∧
    (∀ trace s, (∀ p ∈ trace, 0 ≤ p.1 ∧ 0 ≤ p.2) → RLInv s →
      RLInv (RateLimiter.runSteps trace s)) ∧
    (∀ s, RLInv s → ∀ t, s.now ≤ t →
      (RateLimiter.clean_old t s.timestamps).length ≤ MAX_REQUESTS) := by
  refine ⟨?_, RLInv_guardedStep, ?_, ?_⟩
  · intro t0
    refine ⟨List.sorted_nil, by simp, ?_⟩
    unfold RateLimiter.get_stats_requests RateLimiter.clean_old MAX_REQUESTS
    simp
  · intro trace
    induction trace with
    | nil => intro s _ hinv; exact hinv
    | cons p rest ih =>
        intro s hpos hinv
        obtain ⟨idle, delay⟩ := p
        exact ih _ (fun q hq => hpos q (List.mem_cons_of_mem _ hq))
          (RLInv_guardedStep s idle delay hinv
            (hpos (idle, delay) (List.mem_cons_self _ _)).1
            (hpos (idle, delay) (List.mem_cons_self _ _)).2)
  · intro s hinv t ht
    exact le_trans
      (RateLimiter.clean_old_mono s.timestamps s.now t ht) hinv.2.2

/-- C1 witness: a concrete saturated-but-legal state passes the invariant,
and one disciplined step from it keeps the invariant. -/
theorem rate_limiter_window_bound_witness :
    RLInv ⟨[0, 1, 2], 2⟩ ∧
    RLInv (RateLimiter.guardedStep ⟨[0, 1, 2], 2⟩ 1 (1/2)) ∧
    RLInv (RateLimiter.runSteps [(0, 1), (3, 1)] ⟨[], 0⟩) := by
  have h0 : RLInv (⟨[0, 1, 2], 2⟩ : RateLimiterState) := by
    refine ⟨by norm_num [List.sorted_cons], ?_, ?_⟩
    · intro ts hts
      simp only [List.mem_cons, List.not_mem_nil, or_false] at hts
      rcases hts with rfl | rfl | rfl <;> norm_num
    · unfold RateLimiter.get_stats_requests RateLimiter.clean_old
      exact le_trans (length_dropWhile_le _ _) (by norm_num [MAX_REQUESTS])
  refine ⟨h0, ?_, ?_⟩
  · exact rate_limiter_window_bound.2.1 ⟨[0, 1, 2], 2⟩ 1 (1/2) h0
      (by norm_num) (by norm_num)
  · exact rate_limiter_window_bound.2.2.1 [(0, 1), (3, 1)] ⟨[], 0⟩
      (by norm_num) (rate_limiter_window_bound.1 0)

/-- C1 counterexample: 76 bare `record_request` calls at the same instant
(no interleaved `wait_if_needed`) leave 76 timestamps in the window and make
`get_stats` report 76 > 75, refuting the claim for arbitrary call
sequences. -/
theorem rate_limiter_overflow_without_wait :
    RateLimiter.get_stats_requests
      (RateLimiter.record_request^[76] ⟨[], 0⟩) = 76 ∧ 75 < 76 := by
  have hiter : ∀ n : Nat, RateLimiter.record_request^[n]
      (⟨[], 0⟩ : RateLimiterState) = ⟨List.replicate n 0, 0⟩ := by
    intro n
    induction n with
    | zero => rfl
    | succ n ih =>
        rw [Function.iterate_succ_apply', ih]
        unfold RateLimiter.record_request
        rw [← List.replicate_succ']
  refine ⟨?_, by omega⟩
  rw [hiter 76]
  unfold RateLimiter.get_stats_requests RateLimiter.clean_old
  rw [show List.replicate 76 (0 : ℚ) = 0 :: List.replicate 75 0 from rfl]
  rw [List.dropWhile_cons,
    if_neg (by simp only [decide_eq_true_eq]; unfold WINDOW_SECONDS; norm_num)]
  simp

/-- C3: a response with status 404 raises ProfileNotFoundError at once —
exactly one attempt is made, whatever the retry budget and the rest of the
backend's behaviour. -/
theorem request_404_no_retry (backend : Nat → BackendResult)
    (rot : ProxyRotator) (maxRetries : Nat) (h1 : 1 ≤ maxRetries)
    (w : Bool) (ra : Option ℚ) (h404 : backend 0 = .resp 404 w ra) :
    (request backend maxRetries rot).result = .error .notFound ∧
    (request backend maxRetries rot).attempts = 1 := by
  cases maxRetries with
  | zero => omega
  | succ m =>
      unfold request
      rw [show m + 1 = m + 1 from rfl]
      unfold requestAux
      rw [h404]
      simp

/-- C3 witness: a backend that always answers 404 with the default budget
of 3 makes exactly one attempt and fails with the not-found error. -/
theorem request_404_no_retry_witness :
    (request (fun _ => .resp 404 false none) 3 ⟨[], 0, 0, 0⟩).result
      = .error .notFound ∧
    (request (fun _ => .resp 404 false none) 3 ⟨[], 0, 0, 0⟩).attempts = 1 :=
  request_404_no_retry (fun _ => .resp 404 false none) ⟨[], 0, 0, 0⟩ 3
    (by omega) false none rfl

/-- C4: every rate-limited response (429, or 401 with the "wait" hint)
forces a `rotate_on_error`; with multiple proxies the retry wait is 1 s,
with a single proxy the server Retry-After (default 300 s) is honored;
exhausting the budget raises RateLimitError carrying that wait.  With two
proxies and a backend answering 429, 429, 200, the call returns the 200
response after exactly 3 attempts, 2 logged rotations, and two 1-second
waits. -/
theorem request_rate_limited_behaviour :
    (∀ ra : ℚ,
      (request (fun _ => .resp 429 false (some ra)) 3 ⟨["p"], 0, 0, 0⟩).result
        = .error (.rateLimit ra) ∧
      (request (fun _ => .resp 429 false (some ra)) 3 ⟨["p"], 0, 0, 0⟩).sleeps
        = [ra, ra]) ∧
    ((request (fun _ => .resp 429 false none) 3 ⟨["p"], 0, 0, 0⟩).result
        = .error (.rateLimit 300)) ∧
    ((request (fun _ => .resp 401 true (some 7)) 1 ⟨["p"], 0, 0, 0⟩).result
        = .error (.rateLimit 7)) ∧
    ((request (fun _ => .resp 429 false none) 3 ⟨["p1", "p2"], 0, 0, 0⟩).result
        = .error (.rateLimit 1) ∧
      (request (fun _ => .resp 429 false none) 3
          ⟨["p1", "p2"], 0, 0, 0⟩).rotator.rotationLog = 3 ∧
      (request (fun _ => .resp 429 false none) 3
          ⟨["p1", "p2"], 0, 0, 0⟩).sleeps = [1, 1]) ∧
    (request backend429twice 3 ⟨["p1", "p2"], 0, 0, 0⟩ =
      ⟨.ok 200, 3, ⟨["p1", "p2"], 1, 0, 2⟩, [1, 1], 2⟩) := by
  refine ⟨?_, rfl, rfl, ⟨rfl, rfl, rfl⟩, rfl⟩
  intro ra
  constructor <;>
    simp [request, requestAux, ProxyRotator.record_request,
      ProxyRotator.rotate_on_error, ProxyRotator.rotate,
      ProxyRotator.has_multiple, ROTATE_EVERY_REQUESTS]

/-- C5: with the default budget of 3, three consecutive failures on the
same page produce exactly 3 fetch calls, sleeps of 30 s and 60 s (30 s ×
attempt number), a session refresh before each retry, and no page; and the
iterator over a backend whose first page succeeds and whose second page
always fails emits exactly the first page's posts, sleeps 30 s then 60 s,
refreshes twice, and ends by exhausting the page retries — raising no
error, so everything emitted before the failure is preserved. -/
theorem page_retry_and_early_termination (backend : Nat → Fetch)
    (calls : Nat) (h0 : backend calls = .fail)
    (h1 : backend (calls + 1) = .fail) (h2 : backend (calls + 2) = .fail) :
    fetchRetry backend 3 3 0 calls = (none, calls + 3, [30, 60], 2) ∧
    iter_posts failTailBackend none 10 =
      ⟨[1, 2], 4, [30, 60], 2, .retriesExhausted⟩ := by
  constructor
  · unfold fetchRetry
    rw [h0]
    simp only [show (0 : Nat) < 3 - 1 from by omega, if_true]
    unfold fetchRetry
    rw [h1]
    simp only [show (1 : Nat) < 3 - 1 from by omega, if_true]
    unfold fetchRetry
    rw [h2]
    norm_num
  · norm_num [iter_posts, iterPostsAux, fetchRetry, failTailBackend,
      emitPosts, limitHit, cursorFalsy]
    decide

/-- C5 witness: the always-failing backend satisfies the hypotheses at
call counter 0. -/
theorem page_retry_and_early_termination_witness :
    fetchRetry (fun _ => .fail) 3 3 0 0 = (none, 3, [30, 60], 2) ∧
    iter_posts failTailBackend none 10 =
      ⟨[1, 2], 4, [30, 60], 2, .retriesExhausted⟩ := by
  have h := page_retry_and_early_termination (fun _ => .fail) 0 rfl rfl rfl
  exact ⟨h.1, h.2⟩

lemma emitPosts_count_bound (L : Nat) (hL : 0 < L) :
    ∀ (l : List Nat) (c : Nat), c < L →
      (emitPosts (some L) l c).2.1 = c + (emitPosts (some L) l c).1.length ∧
      (emitPosts (some L) l c).2.1 ≤ L ∧
      ((emitPosts (some L) l c).2.2 = false →
        (emitPosts (some L) l c).2.1 < L) := by
  intro l
  induction l with
  | nil =>
      intro c hc
      exact ⟨by simp [emitPosts], by simp [emitPosts]; omega,
        fun _ => by simp [emitPosts]; omega⟩
  | cons p rest ih =>
      intro c hc
      by_cases hhit : limitHit (some L) (c + 1) = true
      · have hcL : c + 1 = L := by
          unfold limitHit at hhit
          simp only [Bool.and_eq_true, bne_iff_ne, ne_eq,
            decide_eq_true_eq] at hhit
          omega
        simp only [emitPosts, if_pos hhit]
        exact ⟨by simp, by omega, fun hcontra => by simp at hcontra⟩
      · have hlt : c + 1 < L := by
          unfold limitHit at hhit
          simp only [Bool.and_eq_true, bne_iff_ne, ne_eq,
            decide_eq_true_eq, not_and, not_le] at hhit
          omega
        obtain ⟨ih1, ih2, ih3⟩ := ih (c + 1) hlt
        simp only [emitPosts, if_neg hhit]
        exact ⟨by simp only [List.length_cons]; omega, ih2, ih3⟩

lemma iterPosts_emitted_bound (L : Nat) (hL : 0 < L)
    (backend : Nat → Fetch) (maxPR : Nat) :
    ∀ (fuel : Nat) (cursor : Option String) (count calls : Nat),
      count < L →
      (iterPostsAux backend (some L) maxPR fuel cursor count calls
        ).emitted.length + count ≤ L := by
  intro fuel
  induction fuel with
  | zero => intro cursor count calls hc; simpa [iterPostsAux] using by omega
  | succ fuel ih =>
      intro cursor count calls hc
      simp only [iterPostsAux]
      cases hfr : (fetchRetry backend maxPR maxPR 0 calls).1 with
      | none => simpa using by omega
      | some page =>
          obtain ⟨he1, he2, he3⟩ :=
            emitPosts_count_bound L hL page.posts count hc
          by_cases hstop : (emitPosts (some L) page.posts count).2.2 = true
          · simp only [hstop, if_true]
            omega
          · rw [Bool.not_eq_true] at hstop
            simp only [hstop, Bool.false_eq_true, if_false]
            by_cases hmore :
                (!page.has_next_page || cursorFalsy page.end_cursor) = true
            · simp only [hmore, if_true]
              omega
            · simp only [hmore, Bool.false_eq_true, if_false,
                List.length_append]
              have hrec := ih page.end_cursor
                (emitPosts (some L) page.posts count).2.1
                (fetchRetry backend maxPR maxPR 0 calls).2.1
                (he3 hstop)
              omega

/-- C6: for every positive limit L the iterator never emits more than L
items, and with limit 5 over a 3-page backend of 2 posts each it emits
exactly 5 posts in page order, makes exactly 3 page fetches (so never
touches a 4th page, which would fail), and ends because the limit was
reached. -/
theorem iter_posts_limit (L : Nat) (backend : Nat → Fetch) (fuel : Nat)
    (hL : 0 < L) :
    (iter_posts backend (some L) fuel).emitted.length ≤ L ∧
    iter_posts pagesBackend (some 5) 10 =
      ⟨[1, 2, 3, 4, 5], 3, [], 0, .limitReached⟩ := by
  constructor
  · have := iterPosts_emitted_bound L hL backend 3 fuel none 0 0 hL
    unfold iter_posts
    omega
  · rfl

/-- C6 witness: the bound theorem applies at limit 5 over the concrete
3-page backend. -/
theorem iter_posts_limit_witness :
    (iter_posts pagesBackend (some 5) 10).emitted.length ≤ 5 :=
  (iter_posts_limit 5 pagesBackend 10 (by omega)).1

lemma emitPosts_zero_eq_none (l : List Nat) :
    ∀ c, emitPosts (some 0) l c = emitPosts none l c := by
  induction l with
  | nil => intro c; rfl
  | cons p rest ih =>
      intro c
      simp only [emitPosts, limitHit, bne_self_eq_false, Bool.false_and,
        Bool.false_eq_true, if_false, ih]

/-- C10: a limit of 0 and a limit of None are interchangeable everywhere —
the iterator state functions are literally equal on all inputs — and over
the 3-page backend a limit of 0 iterates all pages until the server
reports no continuation cursor, emitting all 6 posts, exactly as None
does. -/
theorem iter_posts_zero_limit_unlimited :
    (∀ (backend : Nat → Fetch) (maxPR fuel : Nat) (cursor : Option String)
      (count calls : Nat),
      iterPostsAux backend (some 0) maxPR fuel cursor count calls =
        iterPostsAux backend none maxPR fuel cursor count calls) ∧
    iter_posts pagesBackend (some 0) 10 =
      ⟨[1, 2, 3, 4, 5, 6], 3, [], 0, .noMorePages⟩ ∧
    iter_posts pagesBackend none 10 =
      ⟨[1, 2, 3, 4, 5, 6], 3, [], 0, .noMorePages⟩ := by
  refine ⟨?_, rfl, rfl⟩
  intro backend maxPR fuel
  induction fuel with
  | zero => intro cursor count calls; rfl
  | succ fuel ih =>
      intro cursor count calls
      simp only [iterPostsAux]
      cases hfr : (fetchRetry backend maxPR maxPR 0 calls).1 with
      | none => rfl
      | some page =>
          simp only [emitPosts_zero_eq_none]
          by_cases hstop : (emitPosts none page.posts count).2.2 = true
          · simp only [hstop, if_true]
          · rw [Bool.not_eq_true] at hstop
            simp only [hstop, Bool.false_eq_true, if_false]
            by_cases hmore :
                (!page.has_next_page || cursorFalsy page.end_cursor) = true
            · simp only [hmore, if_true]
            · simp only [hmore, Bool.false_eq_true, if_false, ih]

/-- C2 counterexample: one item, aria2c exits 0, yet its destination file
does not exist — `flush` reports 0 failed and deletes the recovery file
even though the file-existence verification finds every item missing (the
succeeded-shortcode set is empty), refuting the claim that the failed
count is decided by on-disk verification, authoritative over the exit
status. -/
theorem flush_trusts_exit_zero :
    (flush [⟨"u", "f.jpg", "f"⟩] true true (fun _ => false)).failed = 0 ∧
    (flush [⟨"u", "f.jpg", "f"⟩] true true
      (fun _ => false)).recoveryFileDeleted = true ∧
    (flush [⟨"u", "f.jpg", "f"⟩] true true
      (fun _ => false)).successful_shortcodes = ∅ ∧
    ([(⟨"u", "f.jpg", "f"⟩ : DownloadItem)].filter
      (fun it => (fun _ => false) it.filename)).length = 0 ∧
    [(⟨"u", "f.jpg", "f"⟩ : DownloadItem)].length = 1 := by
  refine ⟨rfl, rfl, ?_, rfl, rfl⟩
  rfl

/-- C2 (amended): for every non-empty batch, `flush` decides the
per-item succeeded-shortcode set by checking each item's destination file
on disk; the failed count is file-check based only when the transfer exits
non-zero (with the binary present) — on exit status 0 every item is
reported successful with no verification, and a missing binary reports all
items failed; the recovery file is deleted iff the reported failed count is
zero; and the in-memory queue is cleared unconditionally. -/
theorem flush_verification (items : List DownloadItem) (found exit0 : Bool)
    (fexists : String → Bool) (hne : items ≠ []) :
    (flush items found exit0 fexists).successful_shortcodes =
      ((items.filter (fun it => fexists it.filename)).map
        (fun it => it.shortcode)).toFinset ∧
    (flush items found exit0 fexists).recoveryFileDeleted =
      decide ((flush items found exit0 fexists).failed = 0) ∧
    (found = true → exit0 = false →
      (flush items found exit0 fexists).failed =
        items.length -
          (items.filter (fun it => fexists it.filename)).length) ∧
    (found = true → exit0 = true →
      (flush items found exit0 fexists).failed = 0) ∧
    (found = false →
      (flush items found exit0 fexists).failed = items.length) ∧
    (flush items found exit0 fexists).queueCleared = true := by
  have hemp : items.isEmpty = false := by
    cases items with
    | nil => exact absurd rfl hne
    | cons a l => rfl
  simp only [flush, hemp, Bool.false_eq_true, if_false]
  refine ⟨trivial, trivial, ?_, ?_, ?_, trivial⟩
  · intro hf he; subst hf; subst he; rfl
  · intro hf he; subst hf; subst he; rfl
  · intro hf; subst hf; rfl

/-- C2 witness: a concrete two-item batch with exit code 1 where exactly
one destination file exists reports one failure and keeps the recovery
file. -/
theorem flush_verification_witness :
    (flush [⟨"u1", "a.jpg", "a"⟩, ⟨"u2", "b.jpg", "b"⟩] true false
      (fun f => f == "a.jpg")).failed = 1 ∧
    (flush [⟨"u1", "a.jpg", "a"⟩, ⟨"u2", "b.jpg", "b"⟩] true false
      (fun f => f == "a.jpg")).recoveryFileDeleted = false := by
  have h := flush_verification
    [⟨"u1", "a.jpg", "a"⟩, ⟨"u2", "b.jpg", "b"⟩] true false
    (fun f => f == "a.jpg") (by simp)
  refine ⟨?_, ?_⟩
  · rw [h.2.2.1 rfl rfl]; rfl
  · rw [h.2.1, h.2.2.1 rfl rfl]; rfl

lemma shortcodeOf_nil : shortcodeOf [] = [] := rfl

/-- C9 counterexample: a recovery file consisting of a single URL line with
no following `out=` line reconstructs to one item whose destination
filename is empty — the malformed block is kept, not dropped, refuting the
claim that every reconstructed item has a non-empty filename. -/
theorem resume_keeps_malformed_entry :
    parseRecoveryLines ["https://cdn.example/a".toList] =
      [⟨"https://cdn.example/a".toList, [], []⟩] ∧
    (⟨"https://cdn.example/a".toList, [], []⟩ : RecoveryItem).filename = []
    := by
  exact ⟨by decide, rfl⟩

/-- C9 (amended): a malformed block — a URL line whose next line (if any)
carries no `out=` directive — is treated as non-fatal: parsing continues
with the remaining lines, but the entry is kept with an empty destination
filename (and empty shortcode) rather than dropped. -/
theorem resume_malformed_block_kept (url : List Char)
    (rest : List (List Char))
    (hurl : httpChars.isPrefixOf (trimChars url) = true)
    (hnext : ∀ next, rest.head? = some next → hasOutDirective next = false) :
    parseRecoveryLines (url :: rest) =
      ⟨trimChars url, [], []⟩ :: parseRecoveryLines rest := by
  cases rest with
  | nil =>
      simp only [parseRecoveryLines, hurl, if_true, shortcodeOf_nil]
  | cons next rest2 =>
      have h := hnext next rfl
      simp only [parseRecoveryLines, hurl, if_true, h, Bool.false_eq_true,
        if_false, shortcodeOf_nil]

/-- C9 witness: two consecutive URL lines — the first block is malformed,
kept with an empty filename, and the second URL is still parsed. -/
theorem resume_malformed_block_kept_witness :
    parseRecoveryLines ["https://x".toList, "https://y".toList] =
      [⟨"https://x".toList, [], []⟩, ⟨"https://y".toList, [], []⟩] := by
  rw [resume_malformed_block_kept "https://x".toList ["https://y".toList]
    (by decide)
    (fun next h => by
      simp only [List.head?_cons, Option.some.injEq] at h
      subst h
      decide)]
  decide

end Igdl
